import Mathlib

/-!
Verification of the DC2 object-catalog reader and e-image reader
(files `GCRCatalogs/dc2_object.py` and `GCRCatalogs/eimage.py`).

The Python code is shallowly embedded: strings are modelled as `List Char`
(so that all operations compute in the kernel), Python dicts as association
lists, numpy arrays as lists of symbolic values together with a dtype tag and
a writeable flag, and raised exceptions as `Except` results.  Statefully
memoised attributes (`_columns`, `_len`, `_cache`, `_constant_arrays`) are
modelled by explicit state passing: each stateful method returns its result
together with the updated wrapper state.
-/

namespace DC2

/-- Python strings, modelled as lists of characters so that splitting,
joining and comparison all compute inside the kernel. -/
abbrev Str := List Char

/-- Shorthand turning a Lean string literal into the `Str` model. -/
def chars (s : String) : Str := s.toList

/-! ### Association lists modelling Python dicts -/

/-- `d.get(k)` on an association list: the value at the first matching key. -/
def lookupA {κ α : Type} [DecidableEq κ] : List (κ × α) → κ → Option α
  | [], _ => none
  | (k', v) :: t, k => if k' = k then some v else lookupA t k

/-- Replace the value stored at key `k` (first occurrence), keeping position;
this is what `d[k] = v` does on an existing dict key. -/
def updateA {κ α : Type} [DecidableEq κ] : List (κ × α) → κ → α → List (κ × α)
  | [], _, _ => []
  | (k', v') :: t, k, v => if k' = k then (k', v) :: t else (k', v') :: updateA t k v

/-- `d[k] = v` on a Python dict: replace in place when the key exists,
append at the end otherwise (dicts preserve insertion order). -/
def insertA {κ α : Type} [DecidableEq κ] (l : List (κ × α)) (k : κ) (v : α) :
    List (κ × α) :=
  if (lookupA l k).isSome then updateA l k v else l ++ [(k, v)]

/-! ### Values, dtypes and schemas (`dc2_object.py`) -/

/-- Scalar cell values appearing in catalog columns and schema defaults.
`nan` models `np.nan`; rationals stand in for the other finite floats. -/
inductive Val where
  | nan
  | intV (i : Int)
  | boolV (b : Bool)
  | strV (s : Str)
  | floatV (q : ℚ)
deriving DecidableEq, Repr

/-- The dtype designators that occur in the reader: `np.float64` (the schema
fallback), the yaml dtypes `float64`/`int64`/`bool`, and the Python types
`int` and `str` injected by `ObjectTableWrapper.__init__`. -/
inductive Dtype where
  | float64
  | int64
  | boolNp
  | intPy
  | strPy
deriving DecidableEq, Repr

/-- `np.dtype(d).str`, the normalised string representation used as the first
component of the constant-array cache key.  On the target platform
`np.dtype(int)` is `int64`, so `intPy` and `int64` share `"<i8"`. -/
def Dtype.npStr : Dtype → Str
  | .float64 => chars "<f8"
  | .int64 => chars "<i8"
  | .intPy => chars "<i8"
  | .boolNp => chars "|b1"
  | .strPy => chars "<U0"

/-- One schema entry `{dtype: ..., default: ...}`; either key may be absent
(`schema_this.get` falls back per key). -/
structure SchemaEntry where
  dtype : Option Dtype := none
  default : Option Val := none
deriving DecidableEq, Repr

/-- The schema dict `{column_name: {dtype, default}}`. -/
abbrev Schema := List (Str × SchemaEntry)

/-- A numpy array as the reader observes it: element values, the dtype string
when it was constructed with an explicit dtype (constant arrays), and the
`writeable` flag (`setflags(write=False)` clears it). -/
structure NpArray where
  dtypeStr : Option Str
  values : List Val
  writeable : Bool
deriving DecidableEq, Repr

/-- `a[i] = v` on a numpy array: numpy refuses element assignment on an
array whose WRITEABLE flag is cleared, raising `ValueError`. -/
def NpArray.setItem (a : NpArray) (i : Nat) (v : Val) : Except String NpArray :=
  if a.writeable = false then .error "ValueError: assignment destination is read-only"
  else if i < a.values.length then .ok { a with values := a.values.set i v }
  else .error "IndexError: index out of bounds"

/-- One on-disk HDF5 group as seen through a pandas storer: its format
metadata, the stored table (column name to column values, in order) and the
row count `nrows` read from storer metadata. -/
structure Storage where
  isTable : Bool
  formatType : String
  table : List (Str × List Val)
  nrows : Nat
deriving DecidableEq

/-- Column names present in backing storage.  Both storer branches of the
`columns` property (`non_index_axes` for 'table', decoded `axis0` for
'fixed') yield exactly the stored column-name set. -/
def Storage.columnNames (st : Storage) : List Str := st.table.map Prod.fst

/-- A `pd.HDFStore` handle: open flag plus the keyed groups it serves. -/
structure FileHandle where
  isOpen : Bool
  groups : List (Str × Storage)
deriving DecidableEq

/-! ### TableWrapper: the partition accessor -/

/-- State of one `TableWrapper`: the storer it wraps, its schema dict, and the
lazily memoised attributes `_columns`, `_len`, `_cache`, `_constant_arrays`. -/
structure TableWrapper where
  storage : Storage
  schema : Schema
  columnsCache : Option (List Str)
  lenCache : Option Nat
  cache : Option (List (Str × List Val))
  constantArrays : List ((Str × Val) × NpArray)
deriving DecidableEq

/-- `TableWrapper.__init__`: fails when the file handle is closed or the
storer format is neither 'table' nor 'fixed'; otherwise starts with every
lazy attribute unset. -/
def TableWrapper.init (fh : FileHandle) (key : Str) (schema : Option Schema) :
    Except String TableWrapper :=
  if fh.isOpen = false then .error "file handle has been closed!"
  else
    match lookupA fh.groups key with
    | none => .error "KeyError: no storer for key"
    | some storer =>
      if storer.isTable = false ∧ storer.formatType ≠ "fixed" then
        .error "storer format type not supported!"
      else
        .ok { storage := storer, schema := schema.getD [],
              columnsCache := none, lenCache := none, cache := none,
              constantArrays := [] }

/-- The `columns` property: computed once, lazily, from storer metadata. -/
def TableWrapper.columnsS (t : TableWrapper) : List Str × TableWrapper :=
  match t.columnsCache with
  | some cs => (cs, t)
  | none => (t.storage.columnNames,
             { t with columnsCache := some t.storage.columnNames })

/-- `__len__`: the row count, computed once, lazily, from storer metadata. -/
def TableWrapper.lenS (t : TableWrapper) : Nat × TableWrapper :=
  match t.lenCache with
  | some n => (n, t)
  | none => (t.storage.nrows, { t with lenCache := some t.storage.nrows })

/-- `__contains__`: membership test against the `columns` property. -/
def TableWrapper.containsS (t : TableWrapper) (item : Str) : Bool × TableWrapper :=
  let r := t.columnsS
  (r.1.contains item, r.2)

/-- Replace the `_constant_arrays` dict of a wrapper (state-update helper). -/
def TableWrapper.withConstantArrays (t : TableWrapper)
    (ca : List ((Str × Val) × NpArray)) : TableWrapper :=
  { t with constantArrays := ca }

/-- `_generate_constant_array`: memoised by the `(dtype.str, value)` pair;
a fresh array is `np.repeat(value, len(self))` with the requested dtype and
its write flag cleared (`setflags(write=False)`). -/
def TableWrapper.generateConstantArray (t : TableWrapper) (dtype : Dtype)
    (value : Val) : NpArray × TableWrapper :=
  match lookupA t.constantArrays (dtype.npStr, value) with
  | some a => (a, t)
  | none =>
    ({ dtypeStr := some dtype.npStr, values := List.replicate t.lenS.1 value,
       writeable := false },
     t.lenS.2.withConstantArrays
       (insertA t.lenS.2.constantArrays (dtype.npStr, value)
         { dtypeStr := some dtype.npStr,
           values := List.replicate t.lenS.1 value, writeable := false }))

/-- The `(dtype, default)` pair `_get_constant_array` resolves for a column
name: schema entry if any, each field falling back to `(np.float64, np.nan)`. -/
def schemaResolve (schema : Schema) (key : Str) : Dtype × Val :=
  (((lookupA schema key).getD {}).dtype.getD Dtype.float64,
   ((lookupA schema key).getD {}).default.getD Val.nan)

/-- `_get_constant_array`: look up dtype and default in the schema and
delegate to `_generate_constant_array`. -/
def TableWrapper.getConstantArrayS (t : TableWrapper) (key : Str) :
    NpArray × TableWrapper :=
  t.generateConstantArray (schemaResolve t.schema key).1
    (schemaResolve t.schema key).2

/-- `__getitem__` (aliased `get`): on first access read the whole partition
into `_cache` (`self._cache = self.storer.read()`); a present column returns
its stored values, and the `KeyError` branch for an absent column returns the
schema-default constant array. -/
def TableWrapper.getS (t : TableWrapper) (key : Str) : NpArray × TableWrapper :=
  match lookupA (t.cache.getD t.storage.table) key with
  | some vals =>
    ({ dtypeStr := none, values := vals, writeable := true },
     { t with cache := some (t.cache.getD t.storage.table) })
  | none =>
    ({ t with cache := some (t.cache.getD t.storage.table) }).getConstantArrayS key

/-- `clear_cache`: drop `_columns`, `_len`, `_cache` and every constant
array. -/
def TableWrapper.clearCache (t : TableWrapper) : TableWrapper :=
  { t with columnsCache := none, lenCache := none, cache := none,
           constantArrays := [] }

/-- Coherence invariant tying a wrapper's memoised attributes to its
read-only backing storage; it holds for a freshly constructed wrapper and is
preserved by every operation. -/
def TableWrapper.Inv (t : TableWrapper) : Prop :=
  (t.cache = none ∨ t.cache = some t.storage.table) ∧
  (t.lenCache = none ∨ t.lenCache = some t.storage.nrows) ∧
  (t.columnsCache = none ∨ t.columnsCache = some t.storage.columnNames) ∧
  ∀ p ∈ t.constantArrays,
    p.2 = { dtypeStr := some p.1.1,
            values := List.replicate t.storage.nrows p.1.2,
            writeable := false }

/-! ### ObjectTableWrapper: tract and patch injection -/

/-- Digits of a decimal numeral, or `none` when the token is not all digits. -/
def digitsToNat (s : Str) : Option Nat :=
  if s = [] then none
  else if s.all (fun c => c.isDigit) then
    some (s.foldl (fun n c => 10 * n + (c.toNat - '0'.toNat)) 0)
  else none

/-- Python `int(token)` restricted to an optional sign followed by digits
(group keys matched by the reader's patterns carry plain digit tokens;
the whitespace tolerance of `int` is irrelevant there). -/
def parseInt (s : Str) : Option Int :=
  match s with
  | '-' :: rest => (digitsToNat rest).map (fun n => -(n : Int))
  | '+' :: rest => (digitsToNat rest).map (fun n => (n : Int))
  | _ => (digitsToNat s).map (fun n => (n : Int))

/-- `','.join(key_items[2])`: the characters of the sub-tile token joined
with commas. -/
def commaJoin (s : Str) : Str :=
  List.intercalate [','] (s.map (fun c => [c]))

/-- An `ObjectTableWrapper`: the parsed tract and patch plus the underlying
`TableWrapper`, whose schema has received the two injected entries. -/
structure ObjectTableWrapper where
  tract : Int
  patch : Str
  tw : TableWrapper
deriving DecidableEq

/-- The two schema assignments at the end of `ObjectTableWrapper.__init__`:
`self._schema['tract'] = {'dtype': int, 'default': self.tract}` and
`self._schema['patch'] = {'dtype': str, 'default': self.patch}`. -/
def injectTractPatch (schema : Schema) (tract : Int) (patch : Str) : Schema :=
  insertA
    (insertA schema (chars "tract")
      { dtype := some Dtype.intPy, default := some (Val.intV tract) })
    (chars "patch")
    { dtype := some Dtype.strPy, default := some (Val.strV patch) }

/-- `ObjectTableWrapper.__init__`: split the storage key on underscores,
parse `key_items[1]` as the tract (`int(...)`), comma-join the characters of
`key_items[2]` as the patch, run the base constructor, then overwrite the
schema entries for `'tract'` and `'patch'` with constant defaults equal to
the parsed values (dtypes `int` and `str`). -/
def ObjectTableWrapper.init (fh : FileHandle) (key : Str)
    (schema : Option Schema) : Except String ObjectTableWrapper :=
  match (key.splitOn '_').get? 1 with
  | none => .error "IndexError: key has no tract token"
  | some tok =>
    match parseInt tok with
    | none => .error "ValueError: invalid literal for int"
    | some tract =>
      match (key.splitOn '_').get? 2 with
      | none => .error "IndexError: key has no patch token"
      | some sub =>
        match TableWrapper.init fh key schema with
        | .error e => .error e
        | .ok base =>
          .ok { tract := tract, patch := commaJoin sub,
                tw := { base with
                  schema := injectTractPatch base.schema tract (commaJoin sub) } }

/-- `tract_and_patch`: the identity dict of a partition, as a pair. -/
def ObjectTableWrapper.tractAndPatch (w : ObjectTableWrapper) : Int × Str :=
  (w.tract, w.patch)

/-! ### Flag masks (`create_basic_flag_mask` and the good/clean modifiers) -/

/-- One loop step of `create_basic_flag_mask`: `out &= (~flag)`, pointwise. -/
def maskAnd (out flag : List Bool) : List Bool :=
  List.zipWith (fun o f => o && !f) out flag

/-- `create_basic_flag_mask(*flags)`: start from `np.ones(len(flags[0]))`
and AND in the negation of every flag array; calling it with no arguments
raises `IndexError`, modelled by `none`. -/
def create_basic_flag_mask (flags : List (List Bool)) : Option (List Bool) :=
  match flags with
  | [] => none
  | f0 :: _ => some (flags.foldl maskAnd (List.replicate f0.length true))

/-- The fixed `not_good_flags` tuple of `_generate_modifiers`: the seven
pixel-quality flag columns. -/
def notGoodFlags : List Str :=
  [chars "base_PixelFlags_flag_edge",
   chars "base_PixelFlags_flag_interpolatedCenter",
   chars "base_PixelFlags_flag_saturatedCenter",
   chars "base_PixelFlags_flag_crCenter",
   chars "base_PixelFlags_flag_bad",
   chars "base_PixelFlags_flag_suspectCenter",
   chars "base_PixelFlags_flag_clipped"]

/-- Native columns referenced by `modifiers['good']`. -/
def goodModifierColumns : List Str := notGoodFlags

/-- Native columns referenced by `modifiers['clean']`:
`('deblend_skipped',) + not_good_flags`. -/
def cleanModifierColumns : List Str := chars "deblend_skipped" :: notGoodFlags

/-- The array the `'good'` modifier produces, given the value arrays of the
native boolean columns (the host framework applies the tuple modifier
positionally to the named columns). -/
def goodArray (g : Str → List Bool) : Option (List Bool) :=
  create_basic_flag_mask (goodModifierColumns.map g)

/-- The array the `'clean'` modifier produces. -/
def cleanArray (g : Str → List Bool) : Option (List Bool) :=
  create_basic_flag_mask (cleanModifierColumns.map g)

/-! ### Partition discovery and catalog construction -/

/-- The compiled filename/groupname regexes, abstracted as predicates
(`re.match` against `FILE_PATTERN` / `GROUP_PATTERN` or their overrides). -/
structure Patterns where
  fileMatch : Str → Bool
  groupMatch : Str → Bool

/-- `base_dir` as the reader sees it: the entries `os.listdir` returns and,
for each name, the groups `pd.HDFStore` would serve — `none` when opening
the file raises `IOError`/`OSError`. -/
structure DataDir where
  names : List Str
  files : Str → Option (List (Str × Storage))

/-- `_open_hdf5`: a fresh read-only handle for the file, or `none` when the
open raises. -/
def openHdf5 (d : DataDir) (nm : Str) : Option FileHandle :=
  (d.files nm).map (fun gs => { isOpen := true, groups := gs })

/-- `key.lstrip('/')`. -/
def lstripSlash (s : Str) : Str := s.dropWhile (fun c => c = '/')

/-- The `for key in fh` loop of `_generate_datasets`: construct one
`ObjectTableWrapper` per group whose stripped key matches the group pattern;
a non-matching group is skipped with a warning. -/
def processGroups (pat : Patterns) (schema : Option Schema) (fh : FileHandle) :
    List (Str × Storage) → List ObjectTableWrapper →
    Except String (List ObjectTableWrapper)
  | [], acc => .ok acc
  | kv :: rest, acc =>
    if pat.groupMatch (lstripSlash kv.1) then
      match ObjectTableWrapper.init fh kv.1 schema with
      | .error e => .error e
      | .ok w => processGroups pat schema fh rest (acc ++ [w])
    else processGroups pat schema fh rest acc

/-- Body of the `for fname in sorted(os.listdir(...))` loop: skip names that
fail the filename pattern; on open failure warn and skip the whole file;
otherwise enumerate its groups. -/
def processFile (pat : Patterns) (schema : Option Schema) (d : DataDir)
    (nm : Str) : Except String (List ObjectTableWrapper) :=
  if pat.fileMatch nm = false then .ok []
  else
    match openHdf5 d nm with
    | none => .ok []
    | some fh => processGroups pat schema fh fh.groups []

/-- The whole directory loop, accumulating datasets file by file. -/
def foldDatasets (pat : Patterns) (schema : Option Schema) (d : DataDir) :
    List Str → List ObjectTableWrapper → Except String (List ObjectTableWrapper)
  | [], acc => .ok acc
  | nm :: rest, acc =>
    match processFile pat schema d nm with
    | .error e => .error e
    | .ok ws => foldDatasets pat schema d rest (acc ++ ws)

/-- `_generate_datasets`: visit the directory entries in sorted order and
collect one accessor per matching group of each readable matching file. -/
def generateDatasets (pat : Patterns) (schema : Option Schema) (d : DataDir) :
    Except String (List ObjectTableWrapper) :=
  foldDatasets pat schema d (List.insertionSort (fun a b => a ≤ b) d.names) []

/-- A directory entry contributes datasets only when it matches the filename
pattern and can be opened. -/
def keepFile (pat : Patterns) (d : DataDir) (nm : Str) : Bool :=
  pat.fileMatch nm && (d.files nm).isSome

/-- `_generate_schema_from_yaml`, given the parsed yaml content (`none`
models `yaml.load` returning `None` for an empty file): warns — first
component — exactly when the content is `None`, and returns the parsed
value unchanged. -/
def generateSchemaFromYaml (parsed : Option Schema) : Bool × Option Schema :=
  (parsed.isNone, parsed)

/-- `_generate_columns`: the union of every dataset's native column names
(the list represents the accumulated Python set). -/
def generateColumns (datasets : List ObjectTableWrapper) : List Str :=
  datasets.foldl (fun cols ds => cols.union ds.tw.storage.columnNames) []

/-- Python truthiness of `self._schema`: `None` and `{}` are falsy. -/
def schemaTruthy : Option Schema → Bool
  | none => false
  | some s => !s.isEmpty

/-- Constructor inputs of `DC2ObjectCatalog._subclass_init`, file contents
included: whether `base_dir` is a directory, the directory listing, the
compiled patterns, whether `schema_path` is set and exists, and the parsed
yaml at that path. -/
structure CatalogConfig where
  baseDirIsDir : Bool
  dir : DataDir
  pat : Patterns
  schemaPathSet : Bool
  schemaFileExists : Bool
  schemaYaml : Option Schema

/-- The schema `_subclass_init` ends up with: loaded from yaml only when the
schema path is set and the file exists, `None` otherwise. -/
def cfgSchema (cfg : CatalogConfig) : Option Schema :=
  if cfg.schemaPathSet && cfg.schemaFileExists then
    (generateSchemaFromYaml cfg.schemaYaml).2
  else none

/-- Catalog state produced by a successful `_subclass_init` (the parts the
verified claims concern: schema, datasets, the native column set, and
whether the column-scan fallback warning fired). -/
structure CatalogState where
  schema : Option Schema
  datasets : List ObjectTableWrapper
  columns : List Str
  warnedFallback : Bool
deriving DecidableEq

/-- `DC2ObjectCatalog._subclass_init`: validate `base_dir`, load the schema,
discover datasets (raising `RuntimeError` when none are found), then derive
the column set from the schema keys or — warning — from scanning every
dataset. -/
def subclassInit (cfg : CatalogConfig) : Except String CatalogState :=
  if cfg.baseDirIsDir = false then
    .error "base_dir is not a valid directory"
  else
    match generateDatasets cfg.pat (cfgSchema cfg) cfg.dir with
    | .error e => .error e
    | .ok datasets =>
      if datasets.isEmpty then .error "No catalogs were found in base_dir"
      else
        .ok { schema := cfgSchema cfg,
              datasets := datasets,
              columns :=
                if schemaTruthy (cfgSchema cfg) then
                  ((cfgSchema cfg).getD []).map Prod.fst
                else generateColumns datasets,
              warnedFallback := !(schemaTruthy (cfgSchema cfg)) }

/-- `available_tracts_and_patches`: identity dicts in partition order. -/
def availableTractsAndPatches (st : CatalogState) : List (Int × Str) :=
  st.datasets.map ObjectTableWrapper.tractAndPatch

/-- `clear_cache` on the catalog: clears every partition's cache. -/
def catalogClearCache (st : CatalogState) : CatalogState :=
  { st with datasets :=
      st.datasets.map (fun w => { w with tw := w.tw.clearCache }) }

/-! ### E-image reader (`eimage.py`) -/

/-- `float(x or 1)`: Python `or` takes the right operand when the left is
falsy, so both `None` and `0` yield `1`. -/
def floatOr1 (x : Option ℚ) : ℚ :=
  match x with
  | none => 1
  | some r => if r = 0 then 1 else r

/-- A `Sensor`: path, name, raft, visit and the per-sensor default rebinning
fixed at construction. -/
structure Sensor where
  path : Str
  name : Str
  raft : Str
  visit : Str
  defaultRebinning : ℚ
deriving DecidableEq

/-- `Sensor.__init__` with its optional `default_rebinning` argument. -/
def Sensor.make (path name raft visit : Str) (default_rebinning : Option ℚ) :
    Sensor :=
  { path := path, name := name, raft := raft, visit := visit,
    defaultRebinning := floatOr1 default_rebinning }

/-- Pixel data as returned by `Sensor.get_data`: either the stored
full-resolution image or a `skimage.rescale` of it at a given scale. -/
inductive ImageData where
  | stored (path : Str)
  | rescaled (scale : ℚ) (base : ImageData)
deriving DecidableEq

/-- `Sensor.get_data(rebinning=None)`: load the image, fall back to the
sensor's `default_rebinning` when no argument is given, and rescale to
`1/rebinning` unless the effective factor is `1`. -/
def Sensor.getData (s : Sensor) (rebinning : Option ℚ) : ImageData :=
  match rebinning with
  | none =>
    if s.defaultRebinning ≠ 1 then
      ImageData.rescaled (1 / s.defaultRebinning) (ImageData.stored s.path)
    else ImageData.stored s.path
  | some r =>
    if r ≠ 1 then ImageData.rescaled (1 / r) (ImageData.stored s.path)
    else ImageData.stored s.path

/-- `self.default_rebinning = float(default_rebinning or 1)` stored on the
`EImageReader` during `_subclass_init`. -/
def readerDefaultRebinning (default_rebinning : Option ℚ) : ℚ :=
  floatOr1 default_rebinning

/-- The sensor constructed inside the reader's discovery loop:
`Sensor(os.path.join(dirpath, filename), sensor, raft, visit)` — note that
the reader's own `default_rebinning` is NOT passed along. -/
def discoveredSensor (dirpath filename name raft visit : Str) : Sensor :=
  Sensor.make (dirpath ++ ['/'] ++ filename) name raft visit none

/-- A `Raft`: name, visit and its sensor dict. -/
structure Raft where
  name : Str
  visit : Str
  sensors : List (Str × Sensor)
deriving DecidableEq

/-- `Raft.add_sensor`: store the sensor under its name when its raft and
visit match and the name is new; otherwise print a message and change
nothing (no exception). -/
def Raft.addSensor (r : Raft) (s : Sensor) : Raft :=
  if s.raft = r.name ∧ s.visit = r.visit ∧ lookupA r.sensors s.name = none then
    { r with sensors := r.sensors ++ [(s.name, s)] }
  else r

/-- A `FocalPlane`: visit and its raft dict. -/
structure FocalPlane where
  visit : Str
  rafts : List (Str × Raft)
deriving DecidableEq

/-- `FocalPlane.add_raft`: store the raft under its name when its visit
matches and the name is new; otherwise print and change nothing. -/
def FocalPlane.addRaft (fp : FocalPlane) (r : Raft) : FocalPlane :=
  if r.visit = fp.visit ∧ lookupA fp.rafts r.name = none then
    { fp with rafts := fp.rafts ++ [(r.name, r)] }
  else fp

/-- `FocalPlane.add_sensor`: auto-create the sensor's raft when absent, then
delegate to that raft's `add_sensor` through `self.rafts[sensor.raft]` —
which raises `KeyError` when the auto-created raft was itself rejected. -/
def FocalPlane.addSensor (fp : FocalPlane) (s : Sensor) :
    Except String FocalPlane :=
  match lookupA (if lookupA fp.rafts s.raft = none then
      (fp.addRaft { name := s.raft, visit := s.visit, sensors := [] }).rafts
    else fp.rafts) s.raft with
  | none => .error "KeyError"
  | some r =>
    .ok { visit := fp.visit,
          rafts := updateA (if lookupA fp.rafts s.raft = none then
              (fp.addRaft { name := s.raft, visit := s.visit, sensors := [] }).rafts
            else fp.rafts) s.raft (r.addSensor s) }

/-- Well-formedness of a raft's sensor dict: keys are unique sensor names
and every stored sensor carries this raft's name and visit. -/
def Raft.WF (r : Raft) : Prop :=
  (r.sensors.map Prod.fst).Nodup ∧
  ∀ p ∈ r.sensors, p.1 = p.2.name ∧ p.2.raft = r.name ∧ p.2.visit = r.visit

/-- Well-formedness of a focal plane: raft keys are unique, every raft is
stored under its own name, carries this focal plane's visit, and is itself
well-formed. -/
def FocalPlane.WF (fp : FocalPlane) : Prop :=
  (fp.rafts.map Prod.fst).Nodup ∧
  ∀ p ∈ fp.rafts, p.1 = p.2.name ∧ p.2.visit = fp.visit ∧ p.2.WF

/-- Decidable equality of `Except` results, so that witnesses can evaluate
the embedded operations on concrete inputs. -/
instance {ε α : Type} [DecidableEq ε] [DecidableEq α] :
    DecidableEq (Except ε α) := fun a b =>
  match a, b with
  | .error e, .error e' =>
    if h : e = e' then .isTrue (by rw [h])
    else .isFalse (by intro hc; cases hc; exact h rfl)
  | .error _, .ok _ => .isFalse (by intro hc; cases hc)
  | .ok _, .error _ => .isFalse (by intro hc; cases hc)
  | .ok v, .ok v' =>
    if h : v = v' then .isTrue (by rw [h])
    else .isFalse (by intro hc; cases hc; exact h rfl)

/-! ### Concrete fixtures used by the witness theorems -/

/-- A fresh accessor over a two-row table with one stored column `id` and a
schema declaring the absent column `g_parent` as `{int64, -1}`. -/
def wrapC1 : TableWrapper :=
  { storage := { isTable := true, formatType := "", nrows := 2,
                 table := [(chars "id", [Val.intV 11, Val.intV 12])] },
    schema := [(chars "g_parent",
      { dtype := some Dtype.int64, default := some (Val.intV (-1)) })],
    columnsCache := none, lenCache := none, cache := none, constantArrays := [] }

/-- Two-row flag columns: `deblend_skipped` is true in row 0, every other
flag column is all-false. -/
def gC2 : Str → List Bool :=
  fun f => if f = chars "deblend_skipped" then [true, false] else [false, false]

/-- A one-group open file handle whose group key parses as tract 4850,
patch `0,0`. -/
def fhC3 : FileHandle :=
  { isOpen := true,
    groups := [(chars "object_4850_00",
      { isTable := true, formatType := "", nrows := 3,
        table := [(chars "id", [Val.intV 1, Val.intV 2, Val.intV 3])] })] }

/-- The accessor `ObjectTableWrapper.__init__` builds over `fhC3` for the
key `object_4850_00`. -/
def wC3 : ObjectTableWrapper :=
  { tract := 4850, patch := chars "0,0",
    tw := { storage := { isTable := true, formatType := "", nrows := 3,
                         table := [(chars "id",
                           [Val.intV 1, Val.intV 2, Val.intV 3])] },
            schema := injectTractPatch [] 4850 (chars "0,0"),
            columnsCache := none, lenCache := none, cache := none,
            constantArrays := [] } }

/-- A directory whose single entry matches no filename pattern. -/
def cfgC4 : CatalogConfig :=
  { baseDirIsDir := true,
    dir := { names := [chars "readme.txt"], files := fun _ => none },
    pat := { fileMatch := fun _ => false, groupMatch := fun _ => false },
    schemaPathSet := true, schemaFileExists := false, schemaYaml := none }

/-- Storage of the single partition of the C5 fixture catalog. -/
def storC5 : Storage :=
  { isTable := true, formatType := "", nrows := 1,
    table := [(chars "id", [Val.intV 7])] }

/-- A one-file, one-group catalog directory whose `schema.yaml` resolves to
`None`. -/
def cfgC5 : CatalogConfig :=
  { baseDirIsDir := true,
    dir := { names := [chars "object_tract_4850.hdf5"],
             files := fun nm =>
               if nm = chars "object_tract_4850.hdf5" then
                 some [(chars "object_4850_00", storC5)]
               else none },
    pat := { fileMatch := fun nm => nm = chars "object_tract_4850.hdf5",
             groupMatch := fun k => k = chars "object_4850_00" },
    schemaPathSet := true, schemaFileExists := true, schemaYaml := none }

/-- The accessor the C5 fixture catalog discovers. -/
def wC5 : ObjectTableWrapper :=
  { tract := 4850, patch := chars "0,0",
    tw := { storage := storC5,
            schema := injectTractPatch [] 4850 (chars "0,0"),
            columnsCache := none, lenCache := none, cache := none,
            constantArrays := [] } }

/-- The catalog state `subclassInit` produces on the C5 fixture. -/
def stC5 : CatalogState :=
  { schema := none, datasets := [wC5], columns := [chars "id"],
    warnedFallback := true }

/-- Patterns for the C7 fixture: two hdf5 names match. -/
def patC7 : Patterns :=
  { fileMatch := fun nm =>
      nm = chars "object_tract_4850.hdf5" ∨ nm = chars "object_tract_5066.hdf5",
    groupMatch := fun k => k = chars "object_4850_00" }

/-- Directory for the C7 fixture: `object_tract_5066.hdf5` matches the
pattern but cannot be opened. -/
def dC7 : DataDir :=
  { names := [chars "object_tract_5066.hdf5", chars "object_tract_4850.hdf5"],
    files := fun nm =>
      if nm = chars "object_tract_4850.hdf5" then
        some [(chars "object_4850_00", storC5)]
      else none }

/-- A fresh accessor whose schema declares the two absent columns
`g_parent` (dtype `int64`) and `r_parent` (dtype Python `int`) with the same
default `-1` — their `(dtype.str, value)` cache keys coincide. -/
def wrapC8 : TableWrapper :=
  { storage := { isTable := true, formatType := "", nrows := 2,
                 table := [(chars "id", [Val.intV 11, Val.intV 12])] },
    schema := [(chars "g_parent",
                 { dtype := some Dtype.int64, default := some (Val.intV (-1)) }),
               (chars "r_parent",
                 { dtype := some Dtype.intPy, default := some (Val.intV (-1)) })],
    columnsCache := none, lenCache := none, cache := none, constantArrays := [] }

/-- A fresh accessor with an empty constant-array cache and unread data. -/
def wrapC9 : TableWrapper :=
  { storage := { isTable := true, formatType := "", nrows := 1,
                 table := [(chars "coord_ra", [Val.floatV 1])] },
    schema := [], columnsCache := none, lenCache := none, cache := none,
    constantArrays := [] }

/-- The file path the C6 sensor is discovered at. -/
def pathC6 : Str := chars "out" ++ ['/'] ++ chars "lsst_e_123_R01_S00.fits.gz"

/-- The sensor the reader's discovery loop builds for
`out/lsst_e_123_R01_S00.fits.gz`. -/
def sensorC6 : Sensor :=
  discoveredSensor (chars "out") (chars "lsst_e_123_R01_S00.fits.gz")
    (chars "S00") (chars "R01") (chars "123")

/-- A sensor whose visit `2` differs from the focal plane fixture's `1`. -/
def sensorC10 : Sensor :=
  { path := [], name := chars "S00", raft := chars "R01", visit := chars "2",
    defaultRebinning := 1 }

/-- A sensor matching the focal plane fixture's visit `1`. -/
def sensorC10b : Sensor :=
  { path := [], name := chars "S00", raft := chars "R01", visit := chars "1",
    defaultRebinning := 1 }

/-- An empty focal plane for visit `1`. -/
def fpC10 : FocalPlane := { visit := chars "1", rafts := [] }

/-- A raft that rejects `sensorC10` (visit mismatch). -/
def raftC10 : Raft := { name := chars "R01", visit := chars "1", sensors := [] }

/-! ### Helper lemmas -/

theorem lookupA_eq_none_iff {κ α : Type} [DecidableEq κ]
    (l : List (κ × α)) (k : κ) :
    lookupA l k = none ↔ k ∉ l.map Prod.fst := by
  induction l with
  | nil => simp [lookupA]
  | cons p t ih =>
    obtain ⟨k', v⟩ := p
    by_cases h : k' = k
    · simp [lookupA, h]
    · simp only [lookupA, h, if_false, ih, List.map_cons, List.mem_cons]
      constructor
      · intro hn
        push_neg
        exact ⟨fun he => h he.symm, hn⟩
      · intro hn
        push_neg at hn
        exact hn.2

theorem lookupA_mem {κ α : Type} [DecidableEq κ]
    {l : List (κ × α)} {k : κ} {v : α} (h : lookupA l k = some v) : (k, v) ∈ l := by
  induction l with
  | nil => simp [lookupA] at h
  | cons p t ih =>
    obtain ⟨k', v'⟩ := p
    by_cases hk : k' = k
    · subst hk
      simp [lookupA] at h
      simp [h]
    · simp [lookupA, hk] at h
      exact List.mem_cons_of_mem _ (ih h)

theorem lookupA_append_of_none {κ α : Type} [DecidableEq κ]
    {l₁ : List (κ × α)} (l₂ : List (κ × α)) {k : κ} (h : lookupA l₁ k = none) :
    lookupA (l₁ ++ l₂) k = lookupA l₂ k := by
  induction l₁ with
  | nil => simp
  | cons p t ih =>
    obtain ⟨k', v'⟩ := p
    by_cases hk : k' = k
    · simp [lookupA, hk] at h
    · simp [lookupA, hk] at h ⊢
      exact ih h

theorem lookupA_updateA_of_ne {κ α : Type} [DecidableEq κ]
    (l : List (κ × α)) {k k' : κ} (v : α) (h : k ≠ k') :
    lookupA (updateA l k v) k' = lookupA l k' := by
  induction l with
  | nil => simp [updateA]
  | cons p t ih =>
    obtain ⟨k₀, v₀⟩ := p
    by_cases hk : k₀ = k
    · subst hk
      simp [updateA, lookupA, h]
    · simp [updateA, hk, lookupA]
      by_cases hk' : k₀ = k' <;> simp [hk', ih]

theorem lookupA_updateA_self {κ α : Type} [DecidableEq κ]
    {l : List (κ × α)} {k : κ} (v : α) (h : (lookupA l k).isSome) :
    lookupA (updateA l k v) k = some v := by
  induction l with
  | nil => simp [lookupA] at h
  | cons p t ih =>
    obtain ⟨k₀, v₀⟩ := p
    by_cases hk : k₀ = k
    · simp [updateA, hk, lookupA]
    · simp only [lookupA, hk, if_false] at h
      simp [updateA, hk, lookupA, ih h]

theorem lookupA_append_single_of_ne {κ α : Type} [DecidableEq κ]
    (l : List (κ × α)) {k k' : κ} (v : α) (h : k ≠ k') :
    lookupA (l ++ [(k, v)]) k' = lookupA l k' := by
  induction l with
  | nil => simp [lookupA, h]
  | cons p t ih =>
    obtain ⟨k₀, v₀⟩ := p
    by_cases hk : k₀ = k' <;> simp [lookupA, hk, ih]

theorem insertA_of_lookupA_none {κ α : Type} [DecidableEq κ]
    {l : List (κ × α)} {k : κ} (v : α) (h : lookupA l k = none) :
    insertA l k v = l ++ [(k, v)] := by
  simp [insertA, h]

theorem lookupA_insertA_self {κ α : Type} [DecidableEq κ]
    (l : List (κ × α)) (k : κ) (v : α) :
    lookupA (insertA l k v) k = some v := by
  by_cases h : (lookupA l k).isSome
  · simp only [insertA, h, if_true]
    exact lookupA_updateA_self v h
  · have hnone : lookupA l k = none := by
      cases hl : lookupA l k with
      | none => rfl
      | some v' => rw [hl] at h; simp at h
    rw [insertA_of_lookupA_none v hnone, lookupA_append_of_none _ hnone]
    simp [lookupA]

theorem lookupA_insertA_of_ne {κ α : Type} [DecidableEq κ]
    (l : List (κ × α)) {k k' : κ} (v : α) (h : k ≠ k') :
    lookupA (insertA l k v) k' = lookupA l k' := by
  by_cases hs : (lookupA l k).isSome
  · simp only [insertA, hs, if_true]
    exact lookupA_updateA_of_ne l v h
  · have hnone : lookupA l k = none := by
      cases hl : lookupA l k with
      | none => rfl
      | some v' => rw [hl] at hs; simp at hs
    rw [insertA_of_lookupA_none v hnone]
    exact lookupA_append_single_of_ne l v h

theorem updateA_of_lookupA_self {κ α : Type} [DecidableEq κ]
    {l : List (κ × α)} {k : κ} {v : α} (h : lookupA l k = some v) :
    updateA l k v = l := by
  induction l with
  | nil => simp [updateA]
  | cons p t ih =>
    obtain ⟨k₀, v₀⟩ := p
    by_cases hk : k₀ = k
    · subst hk
      simp [lookupA] at h
      simp [updateA, h]
    · simp [lookupA, hk] at h
      simp [updateA, hk, ih h]

theorem mem_updateA {κ α : Type} [DecidableEq κ]
    {l : List (κ × α)} {k : κ} {v : α} {p : κ × α} (h : p ∈ updateA l k v) :
    p ∈ l ∨ p = (k, v) := by
  induction l with
  | nil => simp [updateA] at h
  | cons q t ih =>
    obtain ⟨k₀, v₀⟩ := q
    by_cases hk : k₀ = k
    · subst hk
      simp [updateA] at h
      rcases h with h | h
      · right; simp [h]
      · left; exact List.mem_cons_of_mem _ h
    · simp [updateA, hk] at h
      rcases h with h | h
      · left; simp [h]
      · rcases ih h with h' | h'
        · left; exact List.mem_cons_of_mem _ h'
        · right; exact h'

theorem map_fst_updateA {κ α : Type} [DecidableEq κ]
    (l : List (κ × α)) (k : κ) (v : α) :
    (updateA l k v).map Prod.fst = l.map Prod.fst := by
  induction l with
  | nil => simp [updateA]
  | cons q t ih =>
    obtain ⟨k₀, v₀⟩ := q
    by_cases hk : k₀ = k <;> simp [updateA, hk, ih]

theorem updateA_append_of_lookupA_none {κ α : Type} [DecidableEq κ]
    {l : List (κ × α)} {k : κ} (x v : α) (h : lookupA l k = none) :
    updateA (l ++ [(k, x)]) k v = l ++ [(k, v)] := by
  induction l with
  | nil => simp [updateA]
  | cons q t ih =>
    obtain ⟨k₀, v₀⟩ := q
    by_cases hk : k₀ = k
    · simp [lookupA, hk] at h
    · simp [lookupA, hk] at h
      simp [updateA, hk, ih h]

theorem TableWrapper.inv_fresh (st : Storage) (sch : Schema) :
    TableWrapper.Inv
      { storage := st, schema := sch, columnsCache := none, lenCache := none,
        cache := none, constantArrays := [] } := by
  refine ⟨Or.inl rfl, Or.inl rfl, Or.inl rfl, ?_⟩
  intro p hp
  simp at hp

theorem TableWrapper.inv_init {fh : FileHandle} {key : Str}
    {schema : Option Schema} {t : TableWrapper}
    (h : TableWrapper.init fh key schema = .ok t) : t.Inv := by
  unfold TableWrapper.init at h
  split at h
  · exact absurd h (by simp)
  · split at h
    · exact absurd h (by simp)
    · split at h
      · exact absurd h (by simp)
      · cases h with
        | refl => exact TableWrapper.inv_fresh _ _

theorem TableWrapper.generateConstantArray_of_hit {t : TableWrapper}
    {dt : Dtype} {v : Val} {a : NpArray}
    (hl : lookupA t.constantArrays (dt.npStr, v) = some a) :
    t.generateConstantArray dt v = (a, t) := by
  unfold TableWrapper.generateConstantArray
  rw [hl]

theorem TableWrapper.generateConstantArray_of_miss {t : TableWrapper}
    {dt : Dtype} {v : Val}
    (hl : lookupA t.constantArrays (dt.npStr, v) = none) :
    t.generateConstantArray dt v =
      ({ dtypeStr := some dt.npStr, values := List.replicate t.lenS.1 v,
         writeable := false },
       t.lenS.2.withConstantArrays
         (insertA t.lenS.2.constantArrays (dt.npStr, v)
           { dtypeStr := some dt.npStr, values := List.replicate t.lenS.1 v,
             writeable := false })) := by
  unfold TableWrapper.generateConstantArray
  rw [hl]

theorem TableWrapper.lenS_spec (t : TableWrapper)
    (hlen : t.lenCache = none ∨ t.lenCache = some t.storage.nrows) :
    (t.lenS).1 = t.storage.nrows
    ∧ (t.lenS).2.storage = t.storage
    ∧ (t.lenS).2.schema = t.schema
    ∧ (t.lenS).2.cache = t.cache
    ∧ (t.lenS).2.columnsCache = t.columnsCache
    ∧ (t.lenS).2.constantArrays = t.constantArrays
    ∧ ((t.lenS).2.lenCache = none ∨ (t.lenS).2.lenCache = some t.storage.nrows) := by
  rcases hlen with h | h <;> simp [TableWrapper.lenS, h]

theorem TableWrapper.generateConstantArray_spec (t : TableWrapper)
    (dt : Dtype) (v : Val)
    (hlen : t.lenCache = none ∨ t.lenCache = some t.storage.nrows)
    (hca : ∀ p ∈ t.constantArrays,
      p.2 = { dtypeStr := some p.1.1,
              values := List.replicate t.storage.nrows p.1.2,
              writeable := false }) :
    (t.generateConstantArray dt v).1 =
      { dtypeStr := some dt.npStr, values := List.replicate t.storage.nrows v,
        writeable := false }
    ∧ ((t.generateConstantArray dt v).2).storage = t.storage
    ∧ ((t.generateConstantArray dt v).2).schema = t.schema
    ∧ ((t.generateConstantArray dt v).2).cache = t.cache
    ∧ ((t.generateConstantArray dt v).2).columnsCache = t.columnsCache
    ∧ lookupA ((t.generateConstantArray dt v).2).constantArrays (dt.npStr, v)
        = some ((t.generateConstantArray dt v).1)
    ∧ (((t.generateConstantArray dt v).2).lenCache = none ∨
        ((t.generateConstantArray dt v).2).lenCache = some t.storage.nrows)
    ∧ ∀ p ∈ ((t.generateConstantArray dt v).2).constantArrays,
        p.2 = { dtypeStr := some p.1.1,
                values := List.replicate t.storage.nrows p.1.2,
                writeable := false } := by
  cases hl : lookupA t.constantArrays (dt.npStr, v) with
  | some a =>
    have ha : a = { dtypeStr := some dt.npStr,
                    values := List.replicate t.storage.nrows v,
                    writeable := false } := by
      simpa using hca _ (lookupA_mem hl)
    rw [TableWrapper.generateConstantArray_of_hit hl]
    exact ⟨ha, rfl, rfl, rfl, rfl, by simpa using hl, hlen, hca⟩
  | none =>
    obtain ⟨l1, l2, l3, l4, l5, l6, l7⟩ := t.lenS_spec hlen
    rw [TableWrapper.generateConstantArray_of_miss hl]
    rw [l1, l6]
    refine ⟨rfl, l2, l3, l4, l5, lookupA_insertA_self _ _ _,
      by simpa [TableWrapper.withConstantArrays] using l7, ?_⟩
    intro p hp
    rw [insertA_of_lookupA_none _ hl] at hp
    rcases List.mem_append.mp hp with h | h
    · exact hca _ h
    · simp at h
      simp [h]

theorem TableWrapper.getS_of_absent {t : TableWrapper} {key : Str}
    (hc : t.cache = none ∨ t.cache = some t.storage.table)
    (habs : lookupA t.storage.table key = none) :
    t.getS key = ({ t with cache := some t.storage.table }).getConstantArrayS key := by
  have hcget : t.cache.getD t.storage.table = t.storage.table := by
    rcases hc with h | h <;> simp [h]
  unfold TableWrapper.getS
  rw [hcget, habs]

theorem TableWrapper.getS_absent_spec (t : TableWrapper) (key : Str)
    (hInv : t.Inv) (habs : lookupA t.storage.table key = none) :
    (t.getS key).1 =
      { dtypeStr := some (schemaResolve t.schema key).1.npStr,
        values := List.replicate t.storage.nrows (schemaResolve t.schema key).2,
        writeable := false }
    ∧ ((t.getS key).2).cache = some t.storage.table
    ∧ ((t.getS key).2).storage = t.storage
    ∧ ((t.getS key).2).schema = t.schema
    ∧ lookupA ((t.getS key).2).constantArrays
        ((schemaResolve t.schema key).1.npStr, (schemaResolve t.schema key).2)
        = some ((t.getS key).1)
    ∧ ((t.getS key).2).Inv := by
  obtain ⟨hc, hlen, hcols, hca⟩ := hInv
  rw [TableWrapper.getS_of_absent hc habs]
  obtain ⟨g1, g2, g3, g4, g5, g6, g7, g8⟩ :=
    TableWrapper.generateConstantArray_spec
      { t with cache := some t.storage.table }
      (schemaResolve t.schema key).1 (schemaResolve t.schema key).2 hlen hca
  rw [show ({ t with cache := some t.storage.table } : TableWrapper).getConstantArrayS key
        = ({ t with cache := some t.storage.table } : TableWrapper).generateConstantArray
            (schemaResolve t.schema key).1 (schemaResolve t.schema key).2 from rfl]
  refine ⟨g1, by rw [g4], g2, g3, by rw [g6, g1], ?_⟩
  exact ⟨by rw [g4, g2]; exact Or.inr rfl, by rw [g2]; exact g7,
         by rw [g5, g2]; exact hcols, by rw [g2]; exact g8⟩

theorem TableWrapper.getS_hit (t : TableWrapper) (key : Str) (a : NpArray)
    (hc : t.cache = some t.storage.table)
    (habs : lookupA t.storage.table key = none)
    (hhit : lookupA t.constantArrays
      ((schemaResolve t.schema key).1.npStr, (schemaResolve t.schema key).2)
      = some a) :
    t.getS key = (a, t) := by
  have ht' : ({ t with cache := some t.storage.table } : TableWrapper) = t := by
    cases t
    simp_all
  rw [TableWrapper.getS_of_absent (Or.inr hc) habs, ht']
  rw [show t.getConstantArrayS key
        = t.generateConstantArray (schemaResolve t.schema key).1
            (schemaResolve t.schema key).2 from rfl]
  exact TableWrapper.generateConstantArray_of_hit hhit

theorem maskAnd_getD (a b : List Bool) (r : Nat)
    (ha : r < a.length) (hb : r < b.length) :
    (maskAnd a b).getD r false = (a.getD r false && !(b.getD r false)) := by
  induction a generalizing b r with
  | nil => simp at ha
  | cons x a' ih =>
    cases b with
    | nil => simp at hb
    | cons y b' =>
      cases r with
      | zero => simp [maskAnd]
      | succ r' =>
        simp only [List.length_cons, Nat.succ_lt_succ_iff] at ha hb
        simpa [maskAnd, List.getD_cons_succ] using ih b' r' ha hb

theorem maskFold_spec (flags : List (List Bool)) (acc : List Bool) (n : Nat)
    (hacc : acc.length = n) (hfl : ∀ f ∈ flags, f.length = n) :
    (flags.foldl maskAnd acc).length = n
    ∧ ∀ r, r < n →
        (flags.foldl maskAnd acc).getD r false
          = (acc.getD r false && flags.all (fun f => !(f.getD r false))) := by
  induction flags generalizing acc with
  | nil => simp [hacc]
  | cons f fs ih =>
    have hfn : f.length = n := hfl f (List.mem_cons_self f fs)
    have hstep : (maskAnd acc f).length = n := by
      simp [maskAnd, hacc, hfn]
    obtain ⟨ihlen, ihget⟩ :=
      ih (maskAnd acc f) hstep (fun g hg => hfl g (List.mem_cons_of_mem f hg))
    refine ⟨by simpa using ihlen, ?_⟩
    intro r hr
    have h1 := ihget r hr
    have h2 := maskAnd_getD acc f r (by rw [hacc]; exact hr) (by rw [hfn]; exact hr)
    simp only [List.foldl_cons]
    rw [h1, h2, List.all_cons, Bool.and_assoc]

theorem processFile_skip {pat : Patterns} {d : DataDir} {nm : Str}
    (schema : Option Schema) (h : keepFile pat d nm = false) :
    processFile pat schema d nm = .ok [] := by
  unfold keepFile at h
  unfold processFile
  cases hm : pat.fileMatch nm with
  | false => simp
  | true =>
    rw [hm] at h
    simp only [Bool.true_and] at h
    have : d.files nm = none := by
      cases hf : d.files nm with
      | none => rfl
      | some gs => rw [hf] at h; simp at h
    simp [openHdf5, this]

theorem foldDatasets_filter (pat : Patterns) (schema : Option Schema)
    (d : DataDir) :
    ∀ (l : List Str) (acc : List ObjectTableWrapper),
      foldDatasets pat schema d l acc
        = foldDatasets pat schema d (l.filter (keepFile pat d)) acc := by
  intro l
  induction l with
  | nil => intro acc; rfl
  | cons nm rest ih =>
    intro acc
    cases hk : keepFile pat d nm with
    | true =>
      simp only [List.filter_cons, hk, if_true]
      unfold foldDatasets
      cases hp : processFile pat schema d nm with
      | error e => rfl
      | ok ws => exact ih (acc ++ ws)
    | false =>
      simp only [List.filter_cons, hk]
      have hstep : foldDatasets pat schema d (nm :: rest) acc
          = foldDatasets pat schema d rest acc := by
        have hdef : foldDatasets pat schema d (nm :: rest) acc
            = (match processFile pat schema d nm with
               | .error e => .error e
               | .ok ws => foldDatasets pat schema d rest (acc ++ ws)) := rfl
        rw [hdef, processFile_skip schema hk]
        simp
      rw [hstep]
      exact ih acc

theorem filter_erase_of_neg {α : Type} [BEq α] [LawfulBEq α]
    (l : List α) (a : α) (p : α → Bool) (h : p a = false) :
    (l.erase a).filter p = l.filter p := by
  induction l with
  | nil => rfl
  | cons b t ih =>
    by_cases hb : b = a
    · subst hb
      rw [List.erase_cons_head]
      simp [List.filter_cons, h]
    · rw [List.erase_cons_tail (by simpa using hb)]
      simp only [List.filter_cons, ih]

theorem sortFilter_erase_eq (names : List Str) (f : Str) (p : Str → Bool)
    (hp : p f = false) :
    (List.insertionSort (fun a b => a ≤ b) names).filter p
      = (List.insertionSort (fun a b => a ≤ b) (names.erase f)).filter p := by
  have perm1 : ((List.insertionSort (fun a b => a ≤ b) names).filter p).Perm
      (names.filter p) :=
    (List.perm_insertionSort _ names).filter p
  have perm2 : ((List.insertionSort (fun a b => a ≤ b) (names.erase f)).filter p).Perm
      ((names.erase f).filter p) :=
    (List.perm_insertionSort _ (names.erase f)).filter p
  have heq : (names.erase f).filter p = names.filter p :=
    filter_erase_of_neg names f p hp
  have sorted1 : List.Sorted (fun a b => a ≤ b)
      ((List.insertionSort (fun a b => a ≤ b) names).filter p) :=
    (List.sorted_insertionSort _ names).filter p
  have sorted2 : List.Sorted (fun a b => a ≤ b)
      ((List.insertionSort (fun a b => a ≤ b) (names.erase f)).filter p) :=
    (List.sorted_insertionSort _ (names.erase f)).filter p
  exact List.eq_of_perm_of_sorted
    (perm1.trans ((heq ▸ perm2).symm)) sorted1 sorted2

theorem foldDatasets_all_skip {pat : Patterns} {schema : Option Schema}
    {d : DataDir} :
    ∀ {l : List Str} (acc : List ObjectTableWrapper),
      (∀ nm ∈ l, processFile pat schema d nm = .ok []) →
      foldDatasets pat schema d l acc = .ok acc := by
  intro l
  induction l with
  | nil => intro acc _; rfl
  | cons nm rest ih =>
    intro acc h
    unfold foldDatasets
    rw [h nm (List.mem_cons_self nm rest)]
    simpa using ih acc (fun x hx => h x (List.mem_cons_of_mem nm hx))

theorem TableWrapper.init_ok_inversion {fh : FileHandle} {key : Str}
    {schema : Option Schema} {base : TableWrapper}
    (h : TableWrapper.init fh key schema = .ok base) :
    ∃ storer, lookupA fh.groups key = some storer ∧
      base = { storage := storer, schema := schema.getD [],
               columnsCache := none, lenCache := none, cache := none,
               constantArrays := [] } := by
  unfold TableWrapper.init at h
  split at h
  · exact absurd h (by simp)
  · split at h
    · exact absurd h (by simp)
    · rename_i storer hg
      split at h
      · exact absurd h (by simp)
      · simp only [Except.ok.injEq] at h
        exact ⟨storer, hg, h.symm⟩

theorem TableWrapper.inv_of_schema_update {t : TableWrapper} (sch : Schema)
    (h : t.Inv) : TableWrapper.Inv { t with schema := sch } := by
  obtain ⟨a, b, c, d⟩ := h
  exact ⟨a, b, c, d⟩

theorem create_mask_spec (cols : List Str) (g : Str → List Bool) (n : Nat)
    (hne : cols ≠ []) (hlen : ∀ f ∈ cols, (g f).length = n) :
    ∃ m, create_basic_flag_mask (cols.map g) = some m ∧ m.length = n
      ∧ ∀ r, r < n →
          (m.getD r false = true ↔ ∀ f ∈ cols, (g f).getD r false = false) := by
  cases cols with
  | nil => exact absurd rfl hne
  | cons c0 cs =>
    have h0 : (g c0).length = n := hlen c0 (List.mem_cons_self _ _)
    have hfl : ∀ f ∈ (c0 :: cs).map g, f.length = n := by
      intro f hf
      obtain ⟨c, hc, rfl⟩ := List.mem_map.mp hf
      exact hlen c hc
    obtain ⟨hl, hg⟩ := maskFold_spec ((c0 :: cs).map g)
      (List.replicate (g c0).length true) n (by simp [h0]) hfl
    refine ⟨_, rfl, hl, ?_⟩
    intro r hr
    have hrep : (List.replicate (g c0).length true).getD r false = true := by
      rw [h0]
      simp [List.getD_eq_getElem?_getD, List.getElem?_replicate, hr]
    rw [hg r hr, hrep, Bool.true_and, List.all_eq_true]
    constructor
    · intro hall f hf
      simpa using hall (g f) (List.mem_map_of_mem g hf)
    · intro hall f hf
      obtain ⟨c, hc, rfl⟩ := List.mem_map.mp hf
      simpa using hall c hc

theorem processFile_files_congr (pat : Patterns) (schema : Option Schema)
    {d d' : DataDir} (h : d.files = d'.files) (nm : Str) :
    processFile pat schema d nm = processFile pat schema d' nm := by
  unfold processFile openHdf5
  rw [h]

theorem foldDatasets_files_congr (pat : Patterns) (schema : Option Schema)
    {d d' : DataDir} (h : d.files = d'.files) :
    ∀ (l : List Str) (acc : List ObjectTableWrapper),
      foldDatasets pat schema d l acc = foldDatasets pat schema d' l acc := by
  intro l
  induction l with
  | nil => intro acc; rfl
  | cons nm rest ih =>
    intro acc
    unfold foldDatasets
    rw [processFile_files_congr pat schema h nm]
    cases processFile pat schema d' nm with
    | error e => rfl
    | ok ws => exact ih (acc ++ ws)

theorem Raft.addSensor_reject {r : Raft} {s : Sensor}
    (h : ¬(s.raft = r.name ∧ s.visit = r.visit ∧
           lookupA r.sensors s.name = none)) :
    r.addSensor s = r := by
  simp only [Raft.addSensor, if_neg h]

theorem Raft.addSensor_fields (r : Raft) (s : Sensor) :
    (r.addSensor s).name = r.name ∧ (r.addSensor s).visit = r.visit := by
  unfold Raft.addSensor
  split <;> simp

theorem Raft.addSensor_WF {r : Raft} (s : Sensor) (h : r.WF) :
    (r.addSensor s).WF := by
  unfold Raft.addSensor
  split
  case isTrue hcond =>
    obtain ⟨hraft, hvisit, hnone⟩ := hcond
    obtain ⟨hnd, hmem⟩ := h
    have hnotin : s.name ∉ r.sensors.map Prod.fst :=
      (lookupA_eq_none_iff _ _).mp hnone
    constructor
    · simp only [List.map_append, List.map_cons, List.map_nil]
      rw [List.nodup_append]
      refine ⟨hnd, List.nodup_singleton _, ?_⟩
      intro a ha hb
      rw [List.mem_singleton] at hb
      subst hb
      exact hnotin ha
    · intro p hp
      rcases List.mem_append.mp hp with hp | hp
      · exact hmem p hp
      · simp only [List.mem_singleton] at hp
        subst hp
        exact ⟨rfl, hraft, hvisit⟩
  case isFalse => exact h

theorem FocalPlane.addSensor_of_present {fp : FocalPlane} {s : Sensor}
    {r : Raft} (h : lookupA fp.rafts s.raft = some r) :
    fp.addSensor s =
      .ok { visit := fp.visit,
            rafts := updateA fp.rafts s.raft (r.addSensor s) } := by
  simp [FocalPlane.addSensor, h]

theorem FocalPlane.addSensor_of_absent_match {fp : FocalPlane} {s : Sensor}
    (habs : lookupA fp.rafts s.raft = none) (hv : s.visit = fp.visit) :
    fp.addSensor s =
      .ok { visit := fp.visit,
            rafts := fp.rafts ++
              [(s.raft, { name := s.raft, visit := s.visit,
                          sensors := [(s.name, s)] })] } := by
  have hraft : fp.addRaft { name := s.raft, visit := s.visit, sensors := [] }
      = { visit := fp.visit,
          rafts := fp.rafts ++
            [(s.raft, { name := s.raft, visit := s.visit, sensors := [] })] } := by
    simp [FocalPlane.addRaft, hv, habs]
  have hnew : Raft.addSensor { name := s.raft, visit := s.visit, sensors := [] } s
      = { name := s.raft, visit := s.visit, sensors := [(s.name, s)] } := by
    simp [Raft.addSensor, lookupA]
  have hlook : lookupA (fp.rafts ++
      [(s.raft, { name := s.raft, visit := s.visit, sensors := [] })]) s.raft
      = some { name := s.raft, visit := s.visit, sensors := [] } := by
    rw [lookupA_append_of_none _ habs]
    simp [lookupA]
  unfold FocalPlane.addSensor
  rw [if_pos habs, hraft]
  simp only [hlook, hnew]
  rw [updateA_append_of_lookupA_none _ _ habs]

theorem FocalPlane.addSensor_of_absent_mismatch {fp : FocalPlane} {s : Sensor}
    (habs : lookupA fp.rafts s.raft = none) (hv : s.visit ≠ fp.visit) :
    fp.addSensor s = .error "KeyError" := by
  have hraft : fp.addRaft { name := s.raft, visit := s.visit, sensors := [] }
      = fp := by
    have : ¬(({ name := s.raft, visit := s.visit, sensors := [] } : Raft).visit
        = fp.visit ∧ lookupA fp.rafts s.raft = none) := by
      intro hc
      exact hv hc.1
    simp only [FocalPlane.addRaft, if_neg this]
  unfold FocalPlane.addSensor
  rw [if_pos habs, hraft, habs]

/-! ### Claim theorems -/

/-- C1: for every partition accessor and every column name not among the
columns present in backing storage, `get(name)` returns (never raises — the
operation is total) an array whose length equals the accessor's row count,
filled entirely with the schema default value, of the schema dtype, falling
back to `(float64, NaN)` when the name is absent from the schema. -/
theorem get_missing_column_returns_schema_default
    (t : TableWrapper) (name : Str) (hInv : t.Inv)
    (habs : name ∉ t.storage.columnNames) :
    ((t.getS name).1).values.length = t.storage.nrows
    ∧ (∀ x ∈ ((t.getS name).1).values, x = (schemaResolve t.schema name).2)
    ∧ ((t.getS name).1).dtypeStr = some ((schemaResolve t.schema name).1).npStr
    ∧ (lookupA t.schema name = none →
        schemaResolve t.schema name = (Dtype.float64, Val.nan)) := by
  have habs' : lookupA t.storage.table name = none :=
    (lookupA_eq_none_iff _ _).mpr habs
  obtain ⟨h1, -, -, -, -, -⟩ := t.getS_absent_spec name hInv habs'
  rw [h1]
  refine ⟨by simp, ?_, rfl, ?_⟩
  · intro x hx
    exact List.eq_of_mem_replicate hx
  · intro h
    simp [schemaResolve, h]

/-- Witness for C1 at a concrete fresh accessor: the declared-but-absent
`g_parent` column comes back as two copies of `-1` with dtype `<i8`. -/
theorem get_missing_column_returns_schema_default_witness :
    wrapC1.Inv
    ∧ chars "g_parent" ∉ wrapC1.storage.columnNames
    ∧ (((wrapC1.getS (chars "g_parent")).1).values.length = wrapC1.storage.nrows
      ∧ (∀ x ∈ ((wrapC1.getS (chars "g_parent")).1).values,
          x = (schemaResolve wrapC1.schema (chars "g_parent")).2)
      ∧ ((wrapC1.getS (chars "g_parent")).1).dtypeStr
          = some ((schemaResolve wrapC1.schema (chars "g_parent")).1).npStr
      ∧ (lookupA wrapC1.schema (chars "g_parent") = none →
          schemaResolve wrapC1.schema (chars "g_parent")
            = (Dtype.float64, Val.nan))) :=
  ⟨TableWrapper.inv_fresh _ _, by decide,
   get_missing_column_returns_schema_default wrapC1 (chars "g_parent")
     (TableWrapper.inv_fresh _ _) (by decide)⟩

/-- C9: on an accessor whose full-data cache is empty, the first `get` —
for any name, present or absent — reads and caches the entire partition's
table before answering; when the name is absent the answer is the read-only
schema-default constant array, produced only after that full read. -/
theorem first_get_populates_full_cache
    (t : TableWrapper) (name : Str) (hInv : t.Inv) (hc : t.cache = none) :
    ((t.getS name).2).cache = some t.storage.table
    ∧ (name ∉ t.storage.columnNames →
        ((t.getS name).1).writeable = false
        ∧ ((t.getS name).1).values
            = List.replicate t.storage.nrows (schemaResolve t.schema name).2) := by
  constructor
  · cases hl : lookupA t.storage.table name with
    | some vals =>
      unfold TableWrapper.getS
      rw [hc]
      simp [hl]
    | none => exact (t.getS_absent_spec name hInv hl).2.1
  · intro habs
    have hl : lookupA t.storage.table name = none :=
      (lookupA_eq_none_iff _ _).mpr habs
    obtain ⟨h1, -⟩ := t.getS_absent_spec name hInv hl
    rw [h1]
    exact ⟨rfl, rfl⟩

/-- Witness for C9: a fresh accessor queried for an absent column ends up
with the whole one-row table cached, and the answer is a read-only NaN
fill. -/
theorem first_get_populates_full_cache_witness :
    wrapC9.Inv ∧ wrapC9.cache = none
    ∧ (((wrapC9.getS (chars "missing")).2).cache = some wrapC9.storage.table
      ∧ (chars "missing" ∉ wrapC9.storage.columnNames →
          ((wrapC9.getS (chars "missing")).1).writeable = false
          ∧ ((wrapC9.getS (chars "missing")).1).values
              = List.replicate wrapC9.storage.nrows
                  (schemaResolve wrapC9.schema (chars "missing")).2)) :=
  ⟨TableWrapper.inv_fresh _ _, rfl,
   first_get_populates_full_cache wrapC9 (chars "missing")
     (TableWrapper.inv_fresh _ _) rfl⟩

/-- C8: within one accessor's lifetime, constant arrays are memoised by the
`(dtype.str, value)` pair: two lookups of missing columns resolving to the
same pair — the names may differ — return the same array (the second call
re-serves the first call's cache entry and allocates nothing new); the array
has one element per row, is non-writable so element assignment raises, and
`clear_cache` drops every constant array. -/
theorem constant_array_memoized_readonly
    (t : TableWrapper) (n1 n2 : Str) (hInv : t.Inv)
    (h1 : n1 ∉ t.storage.columnNames) (h2 : n2 ∉ t.storage.columnNames)
    (hsame : ((schemaResolve t.schema n1).1.npStr, (schemaResolve t.schema n1).2)
           = ((schemaResolve t.schema n2).1.npStr, (schemaResolve t.schema n2).2)) :
    (((t.getS n1).2).getS n2).1 = (t.getS n1).1
    ∧ (((t.getS n1).2).getS n2).2 = (t.getS n1).2
    ∧ ((t.getS n1).1).values.length = t.storage.nrows
    ∧ ((t.getS n1).1).writeable = false
    ∧ (∀ i v, ((t.getS n1).1).setItem i v
        = .error "ValueError: assignment destination is read-only")
    ∧ (∀ u : TableWrapper, (TableWrapper.clearCache u).constantArrays = []
        ∧ (TableWrapper.clearCache u).cache = none) := by
  have habs1 : lookupA t.storage.table n1 = none :=
    (lookupA_eq_none_iff _ _).mpr h1
  obtain ⟨g1, g2, g3, g4, g5, -⟩ := t.getS_absent_spec n1 hInv habs1
  have habs2 : lookupA ((t.getS n1).2).storage.table n2 = none := by
    rw [g3]
    exact (lookupA_eq_none_iff _ _).mpr h2
  have hc2 : ((t.getS n1).2).cache = some ((t.getS n1).2).storage.table := by
    rw [g3]
    exact g2
  have hhit : lookupA ((t.getS n1).2).constantArrays
      ((schemaResolve ((t.getS n1).2).schema n2).1.npStr,
       (schemaResolve ((t.getS n1).2).schema n2).2) = some ((t.getS n1).1) := by
    rw [g4, ← hsame]
    exact g5
  have hcall := ((t.getS n1).2).getS_hit n2 ((t.getS n1).1) hc2 habs2 hhit
  refine ⟨by rw [hcall], by rw [hcall], by rw [g1]; simp, by rw [g1], ?_, ?_⟩
  · intro i v
    rw [g1]
    rfl
  · intro u
    exact ⟨rfl, rfl⟩

/-- Witness for C8: on a fresh accessor, the missing columns `g_parent`
(dtype `int64`) and `r_parent` (dtype Python `int`) share the default `-1`
and the normalised dtype string `<i8`, hence the same cached array. -/
theorem constant_array_memoized_readonly_witness :
    wrapC8.Inv
    ∧ chars "g_parent" ∉ wrapC8.storage.columnNames
    ∧ chars "r_parent" ∉ wrapC8.storage.columnNames
    ∧ (((wrapC8.getS (chars "g_parent")).2).getS (chars "r_parent")).1
        = (wrapC8.getS (chars "g_parent")).1
    ∧ ((wrapC8.getS (chars "g_parent")).1).writeable = false :=
  ⟨TableWrapper.inv_fresh _ _, by decide, by decide,
   (constant_array_memoized_readonly wrapC8 (chars "g_parent") (chars "r_parent")
     (TableWrapper.inv_fresh _ _) (by decide) (by decide) (by decide)).1,
   (constant_array_memoized_readonly wrapC8 (chars "g_parent") (chars "r_parent")
     (TableWrapper.inv_fresh _ _) (by decide) (by decide) (by decide)).2.2.2.1⟩

/-- C2: row-wise characterisation of the `good` and `clean` modifier masks:
`good` is true at a row iff all seven pixel-quality flag columns are false
there; `clean` is true iff `good` is true and `deblend_skipped` is false. -/
theorem good_clean_masks_rowwise
    (g : Str → List Bool) (n r : Nat)
    (hlen : ∀ f ∈ cleanModifierColumns, (g f).length = n)
    (hr : r < n) :
    ∃ mg mc, goodArray g = some mg ∧ cleanArray g = some mc
      ∧ mg.length = n ∧ mc.length = n
      ∧ ((mg.getD r false = true) ↔
          ∀ f ∈ goodModifierColumns, (g f).getD r false = false)
      ∧ ((mc.getD r false = true) ↔
          (mg.getD r false = true
           ∧ (g (chars "deblend_skipped")).getD r false = false)) := by
  have hgoodlen : ∀ f ∈ goodModifierColumns, (g f).length = n := by
    intro f hf
    exact hlen f (List.mem_cons_of_mem _ hf)
  obtain ⟨mg, hmg, hmgl, hmgget⟩ :=
    create_mask_spec goodModifierColumns g n
      (by simp [goodModifierColumns, notGoodFlags]) hgoodlen
  obtain ⟨mc, hmc, hmcl, hmcget⟩ :=
    create_mask_spec cleanModifierColumns g n
      (by simp [cleanModifierColumns]) hlen
  refine ⟨mg, mc, hmg, hmc, hmgl, hmcl, hmgget r hr, ?_⟩
  rw [hmcget r hr, hmgget r hr]
  show (∀ f ∈ cleanModifierColumns, (g f).getD r false = false) ↔ _
  rw [show cleanModifierColumns = chars "deblend_skipped" :: goodModifierColumns
      from rfl]
  rw [List.forall_mem_cons]
  exact ⟨fun h => ⟨h.2, h.1⟩, fun h => ⟨h.2, h.1⟩⟩

/-- Witness for C2 on two-row columns where only `deblend_skipped` is set in
row 0: `good` and `clean` satisfy the row-wise characterisation. -/
theorem good_clean_masks_rowwise_witness :
    (∀ f ∈ cleanModifierColumns, (gC2 f).length = 2) ∧ 0 < 2
    ∧ (∃ mg mc, goodArray gC2 = some mg ∧ cleanArray gC2 = some mc
        ∧ mg.length = 2 ∧ mc.length = 2
        ∧ ((mg.getD 0 false = true) ↔
            ∀ f ∈ goodModifierColumns, (gC2 f).getD 0 false = false)
        ∧ ((mc.getD 0 false = true) ↔
            (mg.getD 0 false = true
             ∧ (gC2 (chars "deblend_skipped")).getD 0 false = false))) :=
  ⟨by decide, by decide,
   good_clean_masks_rowwise gC2 2 0 (by decide) (by decide)⟩

/-- C3: an accessor built from a storage key `<prefix>_<tile>_<subtile>`
carries the integer parse of the second underscore token as its tract and
the comma-joined sub-tile digits as its patch, and — the names being absent
from storage — `get('tract')` / `get('patch')` return arrays that repeat
exactly those values across every row of the partition. -/
theorem tract_patch_parsed_and_constant
    (fh : FileHandle) (key : Str) (schema : Option Schema)
    (tok sub : Str) (n : Int) (w : ObjectTableWrapper)
    (htok : (key.splitOn '_').get? 1 = some tok)
    (hn : parseInt tok = some n)
    (hsub : (key.splitOn '_').get? 2 = some sub)
    (hok : ObjectTableWrapper.init fh key schema = .ok w)
    (htr : chars "tract" ∉ w.tw.storage.columnNames)
    (hpa : chars "patch" ∉ w.tw.storage.columnNames) :
    w.tract = n ∧ w.patch = commaJoin sub
    ∧ ((w.tw.getS (chars "tract")).1).values
        = List.replicate w.tw.storage.nrows (Val.intV n)
    ∧ ((w.tw.getS (chars "patch")).1).values
        = List.replicate w.tw.storage.nrows (Val.strV (commaJoin sub)) := by
  unfold ObjectTableWrapper.init at hok
  simp only [htok, hn, hsub] at hok
  cases hbase : TableWrapper.init fh key schema with
  | error e =>
    rw [hbase] at hok
    exact absurd hok (by simp)
  | ok base =>
    rw [hbase] at hok
    simp only [Except.ok.injEq] at hok
    obtain ⟨storer, hg, hbase_eq⟩ := TableWrapper.init_ok_inversion hbase
    subst hbase_eq
    subst hok
    have hres_t : schemaResolve
        (injectTractPatch (schema.getD []) n (commaJoin sub)) (chars "tract")
        = (Dtype.intPy, Val.intV n) := by
      unfold schemaResolve injectTractPatch
      rw [lookupA_insertA_of_ne _ _ (by decide), lookupA_insertA_self]
      rfl
    have hres_p : schemaResolve
        (injectTractPatch (schema.getD []) n (commaJoin sub)) (chars "patch")
        = (Dtype.strPy, Val.strV (commaJoin sub)) := by
      unfold schemaResolve injectTractPatch
      rw [lookupA_insertA_self]
      rfl
    have hInv : TableWrapper.Inv
        { storage := storer,
          schema := injectTractPatch (schema.getD []) n (commaJoin sub),
          columnsCache := none, lenCache := none, cache := none,
          constantArrays := [] } := TableWrapper.inv_fresh _ _
    have habs_t : lookupA storer.table (chars "tract") = none :=
      (lookupA_eq_none_iff _ _).mpr htr
    have habs_p : lookupA storer.table (chars "patch") = none :=
      (lookupA_eq_none_iff _ _).mpr hpa
    obtain ⟨ht1, -⟩ := TableWrapper.getS_absent_spec _ (chars "tract") hInv habs_t
    obtain ⟨hp1, -⟩ := TableWrapper.getS_absent_spec _ (chars "patch") hInv habs_p
    refine ⟨rfl, rfl, ?_, ?_⟩
    · rw [ht1, hres_t]
    · rw [hp1, hres_p]

/-- Witness for C3: the key `object_4850_00` yields tract `4850`, patch
`0,0`, and constant three-row `get('tract')` / `get('patch')` arrays. -/
theorem tract_patch_parsed_and_constant_witness :
    ((chars "object_4850_00").splitOn '_').get? 1 = some (chars "4850")
    ∧ parseInt (chars "4850") = some 4850
    ∧ ((chars "object_4850_00").splitOn '_').get? 2 = some (chars "00")
    ∧ ObjectTableWrapper.init fhC3 (chars "object_4850_00") none = .ok wC3
    ∧ (wC3.tract = 4850 ∧ wC3.patch = commaJoin (chars "00")
      ∧ ((wC3.tw.getS (chars "tract")).1).values
          = List.replicate wC3.tw.storage.nrows (Val.intV 4850)
      ∧ ((wC3.tw.getS (chars "patch")).1).values
          = List.replicate wC3.tw.storage.nrows
              (Val.strV (commaJoin (chars "00")))) :=
  ⟨by decide, by decide, by decide, by decide,
   tract_patch_parsed_and_constant fhC3 (chars "object_4850_00") none
     (chars "4850") (chars "00") 4850 wC3 (by decide) (by decide) (by decide)
     (by decide) (by decide) (by decide)⟩

/-- C4: with a valid `base_dir`, construction fails with the fatal
`No catalogs were found` error whenever discovery yields zero accessors; in
particular a directory with no filename-pattern match always raises it. -/
theorem empty_discovery_raises_at_construction
    (cfg : CatalogConfig) (hdir : cfg.baseDirIsDir = true) :
    (generateDatasets cfg.pat (cfgSchema cfg) cfg.dir = .ok [] →
      subclassInit cfg = .error "No catalogs were found in base_dir")
    ∧ ((∀ nm ∈ cfg.dir.names, cfg.pat.fileMatch nm = false) →
      subclassInit cfg = .error "No catalogs were found in base_dir") := by
  have hmain : generateDatasets cfg.pat (cfgSchema cfg) cfg.dir = .ok [] →
      subclassInit cfg = .error "No catalogs were found in base_dir" := by
    intro h
    unfold subclassInit
    rw [hdir]
    simp [h]
  refine ⟨hmain, ?_⟩
  intro hnone
  apply hmain
  unfold generateDatasets
  apply foldDatasets_all_skip
  intro nm hnm
  have hmem : nm ∈ cfg.dir.names :=
    (List.perm_insertionSort _ cfg.dir.names).mem_iff.mp hnm
  unfold processFile
  rw [hnone nm hmem]
  simp

/-- Witness for C4: a directory whose only entry matches nothing raises the
configuration error at construction. -/
theorem empty_discovery_raises_at_construction_witness :
    cfgC4.baseDirIsDir = true
    ∧ (∀ nm ∈ cfgC4.dir.names, cfgC4.pat.fileMatch nm = false)
    ∧ subclassInit cfgC4 = .error "No catalogs were found in base_dir" :=
  ⟨rfl, by decide,
   (empty_discovery_raises_at_construction cfgC4 rfl).2 (by decide)⟩

/-- C5 counterexample: on an empty (`None`-parsing) schema configuration,
`_generate_schema_from_yaml` warns but returns `None`, which is not an empty
mapping — refuting the claim that it returns an empty mapping. -/
theorem schema_yaml_none_returns_none_not_empty_mapping :
    (generateSchemaFromYaml none).1 = true
    ∧ (generateSchemaFromYaml none).2 = none
    ∧ (generateSchemaFromYaml none).2 ≠ some ([] : Schema) := by
  refine ⟨rfl, rfl, ?_⟩
  simp [generateSchemaFromYaml]

/-- C5 amended: when the resolved schema configuration is empty,
`_generate_schema_from_yaml` warns and does not fail, returning the parsed
`None` (a falsy value rather than an empty mapping), and the façade
consequently falls back — with a warning — to deriving its column set by
unioning every partition's native columns. -/
theorem schema_yaml_empty_warns_and_facade_falls_back
    (cfg : CatalogConfig) (st : CatalogState)
    (hpath : cfg.schemaPathSet = true) (hex : cfg.schemaFileExists = true)
    (hyaml : cfg.schemaYaml = none)
    (hok : subclassInit cfg = .ok st) :
    generateSchemaFromYaml cfg.schemaYaml = (true, none)
    ∧ st.schema = none
    ∧ st.warnedFallback = true
    ∧ st.columns = generateColumns st.datasets := by
  have hcs : cfgSchema cfg = none := by
    simp [cfgSchema, hpath, hex, hyaml, generateSchemaFromYaml]
  refine ⟨by rw [hyaml]; rfl, ?_⟩
  unfold subclassInit at hok
  rw [hcs] at hok
  split at hok
  · exact absurd hok (by simp)
  · cases hgen : generateDatasets cfg.pat none cfg.dir with
    | error e =>
      rw [hgen] at hok
      exact absurd hok (by simp)
    | ok ds =>
      rw [hgen] at hok
      split at hok
      · exact absurd hok (by simp)
      · split at hok
        · exact absurd hok (by simp)
        · simp only [Except.ok.injEq] at hok
          subst hok
          exact ⟨rfl, rfl, rfl⟩

/-- Witness for C5 amended: a one-partition catalog whose `schema.yaml`
parses to `None` constructs successfully, with the fallback warning and the
scanned column set. -/
theorem schema_yaml_empty_warns_witness :
    cfgC5.schemaPathSet = true ∧ cfgC5.schemaFileExists = true
    ∧ cfgC5.schemaYaml = none
    ∧ subclassInit cfgC5 = .ok stC5
    ∧ (generateSchemaFromYaml cfgC5.schemaYaml = (true, none)
      ∧ stC5.schema = none
      ∧ stC5.warnedFallback = true
      ∧ stC5.columns = generateColumns stC5.datasets) :=
  ⟨rfl, rfl, rfl, by decide,
   schema_yaml_empty_warns_and_facade_falls_back cfgC5 stC5 rfl rfl rfl
     (by decide)⟩

/-- C6 (code bug evaluation): a reader configured with `default_rebinning=2`
stores that factor, but the sensor its discovery loop constructs is built
without it — its per-sensor default is `1`, so `get_data()` returns the
full-resolution image unchanged instead of the claimed 1/2-scale rescale;
only an explicit `get_data(rebinning=2)` rescales. -/
theorem eimage_default_rebinning_not_forwarded :
    readerDefaultRebinning (some 2) = 2
    ∧ sensorC6.defaultRebinning = 1
    ∧ sensorC6.getData none = ImageData.stored pathC6
    ∧ sensorC6.getData (some 2)
        = ImageData.rescaled (1 / 2) (ImageData.stored pathC6)
    ∧ ImageData.stored pathC6
        ≠ ImageData.rescaled (1 / 2) (ImageData.stored pathC6) := by
  refine ⟨?_, rfl, ?_, ?_, ?_⟩
  · norm_num [readerDefaultRebinning, floatOr1]
  · simp [Sensor.getData, sensorC6, discoveredSensor, Sensor.make, floatOr1,
      pathC6]
  · have h2 : (2 : ℚ) ≠ 1 := by norm_num
    simp [Sensor.getData, h2, sensorC6, discoveredSensor, Sensor.make, pathC6]
  · simp

/-- C7: during discovery in sorted order, a file matching the filename
pattern that cannot be opened is skipped (with a warning) rather than
aborting the scan — the resulting dataset list is exactly the one produced
from the directory without that file. -/
theorem unreadable_file_skipped_discovery_unchanged
    (pat : Patterns) (schema : Option Schema) (d : DataDir) (f : Str)
    (hmatch : pat.fileMatch f = true) (hunread : d.files f = none) :
    generateDatasets pat schema d
      = generateDatasets pat schema
          { names := d.names.erase f, files := d.files } := by
  have hkf : keepFile pat d f = false := by
    simp [keepFile, hmatch, hunread]
  unfold generateDatasets
  rw [foldDatasets_filter pat schema d
    (List.insertionSort (fun a b => a ≤ b) d.names) []]
  rw [sortFilter_erase_eq d.names f (keepFile pat d) hkf]
  rw [← foldDatasets_filter pat schema d
    (List.insertionSort (fun a b => a ≤ b) (d.names.erase f)) []]
  exact @foldDatasets_files_congr pat schema d
    { names := d.names.erase f, files := d.files } rfl _ _

/-- Witness for C7: dropping the matching-but-unreadable
`object_tract_5066.hdf5` from the fixture directory leaves the discovered
dataset list unchanged. -/
theorem unreadable_file_skipped_discovery_unchanged_witness :
    patC7.fileMatch (chars "object_tract_5066.hdf5") = true
    ∧ dC7.files (chars "object_tract_5066.hdf5") = none
    ∧ generateDatasets patC7 none dC7
        = generateDatasets patC7 none
            { names := dC7.names.erase (chars "object_tract_5066.hdf5"),
              files := dC7.files } :=
  ⟨by decide, by decide,
   unreadable_file_skipped_discovery_unchanged patC7 none dC7
     (chars "object_tract_5066.hdf5") (by decide) (by decide)⟩

/-- C10 counterexample: inserting through the focal plane a sensor whose
visit differs while its raft is absent raises `KeyError` (the rejected
auto-created raft is then looked up), refuting the claim that such an
insertion never raises. -/
theorem focalplane_mismatched_sensor_raises :
    fpC10.addSensor sensorC10 = .error "KeyError" := by decide

/-- C10 amended: a raft-level insertion whose raft name, visit or duplicate
name disqualifies it leaves the raft unchanged without raising; a
focal-plane insertion raises no exception provided the sensor's visit
matches or its raft already exists (the remaining case raises `KeyError`
with the tree unchanged), and a rejected insertion into an existing raft
returns the tree unchanged; moreover every insertion preserves the tree
invariant: sensors stored under focal plane `v` and raft `r` satisfy
`sensor.visit = v` and `sensor.raft = r`, with sensor names unique per
raft. -/
theorem focalplane_tree_insertion_invariants :
    (∀ (r : Raft) (s : Sensor),
       ¬(s.raft = r.name ∧ s.visit = r.visit ∧
         lookupA r.sensors s.name = none) →
       r.addSensor s = r)
  ∧ (∀ (fp : FocalPlane) (s : Sensor),
       s.visit = fp.visit ∨ (lookupA fp.rafts s.raft).isSome →
       ∃ fp', fp.addSensor s = .ok fp')
  ∧ (∀ (fp : FocalPlane) (s : Sensor) (r : Raft),
       lookupA fp.rafts s.raft = some r →
       ¬(s.raft = r.name ∧ s.visit = r.visit ∧
         lookupA r.sensors s.name = none) →
       fp.addSensor s = .ok fp)
  ∧ (∀ (fp fp' : FocalPlane) (s : Sensor),
       fp.WF → fp.addSensor s = .ok fp' → fp'.WF) := by
  refine ⟨fun r s h => Raft.addSensor_reject h, ?_, ?_, ?_⟩
  · intro fp s h
    cases hl : lookupA fp.rafts s.raft with
    | some r => exact ⟨_, FocalPlane.addSensor_of_present hl⟩
    | none =>
      rcases h with hv | hs
      · exact ⟨_, FocalPlane.addSensor_of_absent_match hl hv⟩
      · rw [hl] at hs
        simp at hs
  · intro fp s r hl hrej
    cases fp with
    | mk v rs =>
      rw [FocalPlane.addSensor_of_present hl, Raft.addSensor_reject hrej,
        updateA_of_lookupA_self hl]
  · intro fp fp' s hwf hok
    obtain ⟨hnd, hmem⟩ := hwf
    cases hl : lookupA fp.rafts s.raft with
    | some r =>
      rw [FocalPlane.addSensor_of_present hl] at hok
      simp only [Except.ok.injEq] at hok
      subst hok
      obtain ⟨hname, hvisit, hrwf⟩ := hmem _ (lookupA_mem hl)
      constructor
      · rw [map_fst_updateA]
        exact hnd
      · intro p hp
        rcases mem_updateA hp with hp' | hp'
        · exact hmem p hp'
        · subst hp'
          have hf := Raft.addSensor_fields r s
          exact ⟨by rw [hf.1, ← hname], by rw [hf.2]; exact hvisit,
            Raft.addSensor_WF s hrwf⟩
    | none =>
      by_cases hv : s.visit = fp.visit
      · rw [FocalPlane.addSensor_of_absent_match hl hv] at hok
        simp only [Except.ok.injEq] at hok
        subst hok
        have hnotin : s.raft ∉ fp.rafts.map Prod.fst :=
          (lookupA_eq_none_iff _ _).mp hl
        constructor
        · simp only [List.map_append, List.map_cons, List.map_nil]
          rw [List.nodup_append]
          refine ⟨hnd, List.nodup_singleton _, ?_⟩
          intro a ha hb
          rw [List.mem_singleton] at hb
          subst hb
          exact hnotin ha
        · intro p hp
          rcases List.mem_append.mp hp with hp' | hp'
          · exact hmem p hp'
          · rw [List.mem_singleton] at hp'
            subst hp'
            refine ⟨rfl, hv, ?_, ?_⟩
            · simp only [List.map_cons, List.map_nil]
              exact List.nodup_singleton _
            · intro q hq
              rw [List.mem_singleton] at hq
              subst hq
              exact ⟨rfl, rfl, rfl⟩
      · rw [FocalPlane.addSensor_of_absent_mismatch hl hv] at hok
        exact absurd hok (by simp)

/-- Witness for C10 amended: a visit-mismatched raft insertion is a no-op;
a matching focal-plane insertion succeeds and produces a well-formed tree. -/
theorem focalplane_tree_insertion_invariants_witness :
    raftC10.addSensor sensorC10 = raftC10
    ∧ (∃ fp', fpC10.addSensor sensorC10b = .ok fp')
    ∧ FocalPlane.WF
        { visit := chars "1",
          rafts := [(chars "R01",
            { name := chars "R01", visit := chars "1",
              sensors := [(chars "S00", sensorC10b)] })] } :=
  ⟨(focalplane_tree_insertion_invariants).1 raftC10 sensorC10 (by decide),
   (focalplane_tree_insertion_invariants).2.1 fpC10 sensorC10b
     (Or.inl (by decide)),
   (focalplane_tree_insertion_invariants).2.2.2 fpC10
     { visit := chars "1",
       rafts := [(chars "R01",
         { name := chars "R01", visit := chars "1",
           sensors := [(chars "S00", sensorC10b)] })] }
     sensorC10b ⟨List.nodup_nil, fun p hp => absurd hp (List.not_mem_nil p)⟩
     (by decide)⟩

end DC2

